import Mathlib

/-
  Shallow embedding of `src/index.js` (the idb-kv batching layer).

  The JS class wraps IndexedDB behind a queue of pending actions that a
  timer periodically commits in one transaction.  The embedding makes the
  asynchronous effects explicit:

  * promise settlements become entries of an event log (`Ev`);
  * a promise identity is a natural number: `batchId` names the current
    `_batchPromise` (a fresh promise = a fresh number), and each queued
    `get` carries the number of its own resolve/reject pair (`getId`);
  * the underlying IndexedDB object store is an association list
    `Store := List (Key × Option Value)`; a stored `none` models a stored
    `undefined`, which `IDBObjectStore.get` cannot distinguish from an
    absent key, exactly as in the browser;
  * a function that in JS is `async` never throws synchronously — its
    failures surface as a rejected returned promise; outcomes of such
    calls are `POutcome` / `EnqueueResult` values;
  * the settlement of the one in-flight transaction is a parameter
    (`TxnOutcome`): the proofs quantify over `oncomplete` / `onerror` /
    `onabort`.
-/

namespace IdbKv

abbrev Key := String
abbrev Value := Nat

/-- Errors observable through the promises of the engine. -/
inductive Error where
  /-- the `new Error('This Idbkv instance is closed')` thrown by
      `get`/`set`/`delete` -/
  | closedError
  /-- `TypeError` from dereferencing the nulled `_actions` -/
  | typeError
  /-- `request.error` of a failed `indexedDB.open` -/
  | conn (n : Nat)
  /-- a transaction error or abort reason -/
  | txn (n : Nat)
  /-- `request.error` of a failed `indexedDB.deleteDatabase` -/
  | eraseFail (n : Nat)
  deriving DecidableEq

/-- The `type` field of a queued action ('get', 'set' or 'delete'). -/
inductive ActionType where
  | get
  | set
  | delete
  deriving DecidableEq

/-- One entry of `this._actions` (lines 29-35 of the source): `type`,
    `key`, `value` (present only for sets), and — only for gets — the
    `resolve`/`reject` pair of the promise returned by `get`, identified
    here by the number `getId`. -/
structure Action where
  type : ActionType
  key : Key
  value : Option Value := none
  getId : Option Nat := none
  deriving DecidableEq

/-- The mutable fields of the `Idbkv` instance.  `batchId` is the
    identity of the current `_batchPromise` (with its `_resolveBatch` /
    `_rejectBatch` pair); a commit installs a fresh promise, modelled as
    `batchId + 1`.  `nextGetId` numbers the promises handed out by
    `get`.  `actions` is `none` after the open-failure handler sets
    `this._actions = null`. -/
structure Idbkv where
  storeName : String
  batchInterval : Nat
  closed : Bool
  actions : Option (List Action)
  batchId : Nat
  nextGetId : Nat
  deriving DecidableEq

/-- The constructor (lines 2-48): `storeName = 'idb-kv'`, the
    `batchInterval` option defaults to 10, the queue starts empty and
    open, and the first `_batchPromise` exists from the start. -/
def Idbkv.init (batchInterval : Option Nat) : Idbkv :=
  { storeName := "idb-kv"
    batchInterval := batchInterval.getD 10
    closed := false
    actions := some []
    batchId := 0
    nextGetId := 0 }

/-- Contents of the single object store: an association list from keys
    to stored values (a stored value may itself be `undefined`). -/
abbrev Store := List (Key × Option Value)

/-- `IDBObjectStore.get`: the value under `k`, or `none` when absent. -/
def storeGet : Store → Key → Option Value
  | [], _ => none
  | (k', v) :: rest, k => if k' = k then v else storeGet rest k

/-- `IDBObjectStore.delete`: remove every entry stored under `k`. -/
def storeDelete : Store → Key → Store
  | [], _ => []
  | (k', v) :: rest, k =>
    if k' = k then storeDelete rest k else (k', v) :: storeDelete rest k

/-- `IDBObjectStore.put`: upsert `v` under `k`. -/
def storePut (st : Store) (k : Key) (v : Option Value) : Store :=
  (k, v) :: storeDelete st k

/-- Observable promise settlements and lifecycle points, in the order in
    which they happen. -/
inductive Ev where
  /-- `action.resolve(request.result)` for the get numbered `gid` -/
  | resolveGet (gid : Option Nat) (v : Option Value)
  /-- `action.reject(e)` for the get numbered `gid` -/
  | rejectGet (gid : Option Nat) (e : Error)
  /-- `resolveBatch()` of the batch promise numbered `bid` -/
  | resolveBatch (bid : Nat)
  /-- `rejectBatch(e)` of the batch promise numbered `bid` -/
  | rejectBatch (bid : Nat) (e : Error)
  /-- an invocation of `_commit()` -/
  | commitCall
  /-- `this.closed = true` executed -/
  | closedSet
  /-- `clearInterval` executed -/
  | timerCleared
  /-- `db.close()` executed -/
  | connClosed
  /-- the promise returned by `close()` resolved -/
  | closeResolved
  /-- `indexedDB.deleteDatabase` issued -/
  | deleteDatabase
  deriving DecidableEq

/-- Outcome of a promise-returning call. -/
inductive POutcome where
  | resolved
  | rejected (e : Error)
  | pending
  deriving DecidableEq

/-- What an enqueue method (`get`/`set`/`delete`) hands its caller. -/
inductive EnqueueResult where
  /-- the returned promise is rejected with the closed error -/
  | closedErr
  /-- `this._actions.push` crashed on a nulled queue -/
  | crashTypeError
  /-- a promise numbered `gid`, settled later by the commit engine -/
  | getPromise (gid : Nat)
  /-- the current `_batchPromise`, numbered `bid` -/
  | batchPromise (bid : Nat)
  deriving DecidableEq

/-- The action object literal pushed by `set` (lines 62-66). -/
def setAction (k : Key) (v : Value) : Action :=
  { type := ActionType.set, key := k, value := some v }

/-- The action object literal pushed by `get` (lines 52-57),
    carrying the resolve/reject pair numbered `g`. -/
def getAction (k : Key) (g : Nat) : Action :=
  { type := ActionType.get, key := k, getId := some g }

/-- The action object literal pushed by `delete` (lines 71-74). -/
def deleteAction (k : Key) : Action :=
  { type := ActionType.delete, key := k }

/-- `get(key)` (lines 49-59): reject when closed, otherwise push a get
    action and return its fresh promise. -/
def get (s : Idbkv) (k : Key) : Idbkv × EnqueueResult :=
  if s.closed then (s, .closedErr)
  else
    match s.actions with
    | none => (s, .crashTypeError)
    | some q =>
      ({ s with actions := some (q ++ [getAction k s.nextGetId])
                nextGetId := s.nextGetId + 1 },
       .getPromise s.nextGetId)

/-- `set(key, value)` (lines 60-68): reject when closed, otherwise push
    a set action and return the current `_batchPromise`. -/
def set (s : Idbkv) (k : Key) (v : Value) : Idbkv × EnqueueResult :=
  if s.closed then (s, .closedErr)
  else
    match s.actions with
    | none => (s, .crashTypeError)
    | some q =>
      ({ s with actions := some (q ++ [setAction k v]) }, .batchPromise s.batchId)

/-- `delete(key)` (lines 69-76): reject when closed, otherwise push a
    delete action and return the current `_batchPromise`. -/
def delete (s : Idbkv) (k : Key) : Idbkv × EnqueueResult :=
  if s.closed then (s, .closedErr)
  else
    match s.actions with
    | none => (s, .crashTypeError)
    | some q =>
      ({ s with actions := some (q ++ [deleteAction k]) }, .batchPromise s.batchId)

/-- How a method call surfaces at the call site: a synchronous throw, or
    a returned promise. -/
inductive JsCall where
  | syncThrow (e : Error)
  | returnedPromise (r : EnqueueResult)
  deriving DecidableEq

/-- The call site view of `set`.  `set` is declared `async`, so the
    `throw` in its body is captured into the returned promise and the
    call itself never throws synchronously. -/
def setCall (s : Idbkv) (k : Key) (v : Value) : Idbkv × JsCall :=
  ((set s k v).1, .returnedPromise (set s k v).2)

/-- Lines 110-118 of `_commit`, the synchronous phase before the first
    `await`: `this._actions` is emptied (the caller keeps the drained
    list as its snapshot), the current batch resolver pair is detached
    (its number is returned) and a fresh `_batchPromise` — number
    `batchId + 1` — is installed. -/
def drainSwap (s : Idbkv) : Idbkv × Nat :=
  ({ s with actions := some [], batchId := s.batchId + 1 }, s.batchId)

/-- The `for (let action of commitedActions)` loop (lines 123-137) run
    inside one transaction: requests are issued in queue order against
    the transaction-local view of the store, and each get's request
    resolves that get's own promise with what it read. -/
def applyActions : List Action → Store → Store × List Ev
  | [], st => (st, [])
  | a :: rest, st =>
    match a.type with
    | ActionType.get =>
      let r := applyActions rest st
      (r.1, Ev.resolveGet a.getId (storeGet st a.key) :: r.2)
    | ActionType.set => applyActions rest (storePut st a.key a.value)
    | ActionType.delete => applyActions rest (storeDelete st a.key)

/-- When the transaction errors or aborts, every outstanding get request
    fires `onerror` and `action.reject` runs for each action that has a
    reject handler (only gets do). -/
def rejectGets (q : List Action) (e : Error) : List Ev :=
  q.filterMap (fun a => a.getId.map (fun g => Ev.rejectGet (some g) e))

/-- How the single in-flight transaction settles: `oncomplete`,
    `onerror` (with `transaction.error = e`), or `onabort` (the handler
    receives `e`). -/
inductive TxnOutcome where
  | complete
  | error (e : Error)
  | abort (e : Error)
  deriving DecidableEq

/-- Result of running a promise-returning operation: the engine state
    after it, the store contents, the settlements it caused, and how its
    own returned promise settled. -/
structure Out where
  eng : Idbkv
  store : Store
  evs : List Ev
  result : POutcome
  deriving DecidableEq

/-- `_commit()` (lines 107-152), run with the db handle resolved (the
    only states in which the source can reach it: the timer starts after
    `await this.db`, and `close` awaits the timer first).  Empty queue:
    early return, nothing else happens.  Otherwise: the synchronous
    drain-and-swap, then the transaction; on `oncomplete` the loop's
    events stand and the detached batch promise resolves; on
    `onerror`/`onabort` the gets reject, the detached batch promise
    rejects with the transaction's error, and `resolve()` still runs —
    the commit's own promise resolves either way (line 149).  A nulled
    queue would crash on `this._actions.length`. -/
def _commit (s : Idbkv) (st : Store) (txn : TxnOutcome) : Out :=
  match s.actions with
  | none => ⟨s, st, [], .rejected .typeError⟩
  | some [] => ⟨s, st, [], .resolved⟩
  | some (a :: rest) =>
    let s' := (drainSwap s).1
    let bid := (drainSwap s).2
    match txn with
    | .complete =>
      let r := applyActions (a :: rest) st
      ⟨s', r.1, r.2 ++ [Ev.resolveBatch bid], .resolved⟩
    | .error e =>
      ⟨s', st, rejectGets (a :: rest) e ++ [Ev.rejectBatch bid e], .resolved⟩
    | .abort e =>
      ⟨s', st, rejectGets (a :: rest) e ++ [Ev.rejectBatch bid e], .resolved⟩

/-- State of the `this.db` promise as seen by an awaiter. -/
inductive DbState where
  | pending
  | resolved
  | rejected (e : Error)
  deriving DecidableEq

/-- State of the `this._batchTimer` promise: the `setInterval` handle
    with its period, or the rejection inherited from `this.db`. -/
inductive TimerResult where
  | interval (period : Nat)
  | rejectedT (e : Error)
  | pendingT
  deriving DecidableEq

/-- `_startBatchTimer()` (lines 98-105): `await this.db` — so nothing
    happens until the db promise settles, and its rejection becomes the
    timer promise's; on success one `_commit()` runs at once (whatever
    the queue holds) and the interval is installed with period
    `this.batchInterval`. -/
def _startBatchTimer (s : Idbkv) (db : DbState) : List Ev × TimerResult :=
  match db with
  | .pending => ([], .pendingT)
  | .rejected e => ([], .rejectedT e)
  | .resolved => ([Ev.commitCall], .interval s.batchInterval)

/-- The `request.onerror` handler of `indexedDB.open` (lines 11-21):
    close the engine, reject every queued action that has a reject
    handler, reject the current batch promise, null the queue (and
    reject `this.db`, which the `DbState.rejected` argument of the other
    operations records). -/
def dbOnError (s : Idbkv) (e : Error) : Idbkv × List Ev :=
  ({ s with closed := true, actions := none },
   rejectGets (s.actions.getD []) e ++ [Ev.rejectBatch s.batchId e])

/-- `close()` (lines 77-87): `this.closed = true` runs first; then
    `await this._batchTimer` — if that promise was rejected, `close`
    rejects there, before any `clearInterval` or commit; otherwise the
    interval is cleared, the final `_commit()` drains the queue and is
    awaited, `db.close()` runs and `close`'s promise resolves. -/
def close (s : Idbkv) (timer : TimerResult) (st : Store) (txn : TxnOutcome) : Out :=
  let s₁ := { s with closed := true }
  match timer with
  | .pendingT => ⟨s₁, st, [Ev.closedSet], .pending⟩
  | .rejectedT e => ⟨s₁, st, [Ev.closedSet], .rejected e⟩
  | .interval _ =>
    let o := _commit s₁ st txn
    match o.result with
    | .resolved =>
      ⟨o.eng, o.store,
       Ev.closedSet :: Ev.timerCleared :: (o.evs ++ [Ev.connClosed, Ev.closeResolved]),
       .resolved⟩
    | r => ⟨o.eng, o.store, Ev.closedSet :: Ev.timerCleared :: o.evs, r⟩

/-- Whether `indexedDB.deleteDatabase` succeeds, and with which error it
    fails. -/
inductive EraseOutcome where
  | success
  | failure (e : Error)
  deriving DecidableEq

/-- `destroy()` (lines 88-97): `await this.close()` — its rejection is
    destroy's; then `indexedDB.deleteDatabase` on the db's name, and the
    returned promise resolves on the request's success and rejects with
    `request.error` on its failure. -/
def destroy (s : Idbkv) (timer : TimerResult) (st : Store) (txn : TxnOutcome)
    (er : EraseOutcome) : Out :=
  let o := close s timer st txn
  match o.result with
  | .resolved =>
    match er with
    | .success => ⟨o.eng, [], o.evs ++ [Ev.deleteDatabase], .resolved⟩
    | .failure e => ⟨o.eng, o.store, o.evs ++ [Ev.deleteDatabase], .rejected e⟩
  | r => ⟨o.eng, o.store, o.evs, r⟩

/-- The single completion channel of a queued action: a get settles
    through its own numbered promise, a set or delete through the batch
    promise `bid` of the batch that drained it. -/
def settledIn (a : Action) (bid : Nat) (evs : List Ev) : Prop :=
  match a.getId with
  | some g =>
    (∃ v, Ev.resolveGet (some g) v ∈ evs) ∨ (∃ e, Ev.rejectGet (some g) e ∈ evs)
  | none => Ev.resolveBatch bid ∈ evs ∨ ∃ e, Ev.rejectBatch bid e ∈ evs

/-
  A small event-loop machine over the same definitions.  A drained batch
  whose transaction has not yet settled sits in `inflight`; the schedule
  decides when each transaction settles relative to the callers' code.
  The synchronous segments of the JS run uninterrupted (JavaScript is
  single threaded), and the chain of `await`s inside `close()` runs as
  microtasks, all of which drain before the task that fires the pending
  transaction's `oncomplete` — so `closeCall` is a single step while
  `settle` is a separate, later one.
-/

/-- Whole-system state: the engine, the store, the drained batches whose
    transactions are still in flight (each with its detached batch
    promise number), the scheduler and connection flags, the batch
    promise `close()` is awaiting (if any), and the event log. -/
structure Sys where
  eng : Idbkv
  store : Store
  inflight : List (List Action × Nat)
  timerActive : Bool
  dbReady : Bool
  closeWait : Option Nat
  log : List Ev
  deriving DecidableEq

/-- One schedule entry: a caller's method call, the db opening, an
    interval tick, or the settlement of the oldest in-flight
    transaction. -/
inductive Lab where
  | opGet (k : Key)
  | opSet (k : Key) (v : Value)
  | opDel (k : Key)
  | dbOpen
  | tick
  | closeCall
  | settle (t : TxnOutcome)
  deriving DecidableEq

/-- The synchronous phase of `_commit` as one machine step: a non-empty
    queue is drained and parked in `inflight` with its detached batch
    promise number; an empty queue is the early return. -/
def commitSync (y : Sys) : Sys :=
  match y.eng.actions with
  | some (a :: rest) =>
    { y with eng := (drainSwap y.eng).1
             inflight := y.inflight ++ [(a :: rest, (drainSwap y.eng).2)] }
  | _ => y

/-- The oldest in-flight transaction settles: on `oncomplete` the loop's
    events and the batch resolution land in the log and the writes land
    in the store; on error or abort the gets and the batch promise
    reject.  If `close()` was awaiting exactly this batch's commit, its
    own promise now resolves (after `db.close()`). -/
def settleTxn (y : Sys) (t : TxnOutcome) : Sys :=
  match y.inflight with
  | [] => y
  | (q, bid) :: rest =>
    let y₁ :=
      match t with
      | .complete =>
        { y with store := (applyActions q y.store).1
                 log := y.log ++ (applyActions q y.store).2 ++ [Ev.resolveBatch bid]
                 inflight := rest }
      | .error e =>
        { y with log := y.log ++ rejectGets q e ++ [Ev.rejectBatch bid e]
                 inflight := rest }
      | .abort e =>
        { y with log := y.log ++ rejectGets q e ++ [Ev.rejectBatch bid e]
                 inflight := rest }
    if y.closeWait = some bid then
      { y₁ with log := y₁.log ++ [Ev.connClosed, Ev.closeResolved], closeWait := none }
    else y₁

/-- One step of the machine.  `dbOpen` is `request.onsuccess` plus the
    resumption of `_startBatchTimer`: the immediate `_commit()` and the
    interval installation.  `closeCall` is the whole microtask chain of
    `close()`: flag, `clearInterval`, final `_commit()`; if that final
    commit drained a batch, `close` parks awaiting it, otherwise the
    commit returned at once and `close` resolves immediately — before
    any still-pending earlier transaction settles. -/
def step (y : Sys) : Lab → Sys
  | .opGet k => { y with eng := (get y.eng k).1 }
  | .opSet k v => { y with eng := (set y.eng k v).1 }
  | .opDel k => { y with eng := (delete y.eng k).1 }
  | .dbOpen =>
    if y.dbReady then y
    else commitSync { y with dbReady := true, timerActive := true
                             log := y.log ++ [Ev.commitCall] }
  | .tick =>
    if y.timerActive then commitSync { y with log := y.log ++ [Ev.commitCall] } else y
  | .closeCall =>
    let y₁ := { y with eng := { y.eng with closed := true }
                       timerActive := false
                       log := y.log ++ [Ev.closedSet, Ev.timerCleared, Ev.commitCall] }
    match y₁.eng.actions with
    | some (_ :: _) =>
      { commitSync y₁ with closeWait := some y₁.eng.batchId }
    | some [] => { y₁ with log := y₁.log ++ [Ev.connClosed, Ev.closeResolved] }
    | none => y₁
  | .settle t => settleTxn y t

/-- The machine started on a freshly constructed engine. -/
def initSys : Sys :=
  { eng := Idbkv.init none
    store := []
    inflight := []
    timerActive := false
    dbReady := false
    closeWait := none
    log := [] }

/-- Run a schedule from the initial state. -/
def run (labs : List Lab) : Sys :=
  labs.foldl step initSys

/-- Index of the first occurrence of an event in a log. -/
def firstIdx : List Ev → Ev → Option Nat
  | [], _ => none
  | x :: rest, e => if x = e then some 0 else (firstIdx rest e).map (· + 1)

/-- `a` occurs in the log, strictly before the first occurrence of `b`. -/
def precedes (l : List Ev) (a b : Ev) : Bool :=
  match firstIdx l a, firstIdx l b with
  | some i, some j => decide (i < j)
  | _, _ => false

/-- The schedule refuting the drain guarantee of `close()`: the db
    opens, a set is enqueued, the interval tick drains it into a
    transaction, `close()` runs while that transaction is still in
    flight, and only then does the transaction complete. -/
def closeRaceSchedule : List Lab :=
  [Lab.dbOpen, Lab.opSet "a" 1, Lab.tick, Lab.closeCall, Lab.settle TxnOutcome.complete]

/-
  Helper lemmas, shared by the claim theorems below.
-/

/-- A commit on a non-nulled queue resolves its own promise, whatever
    the transaction does. -/
theorem _commit_result_resolved (s : Idbkv) (st : Store) (txn : TxnOutcome)
    (q : List Action) (hq : s.actions = some q) :
    (_commit s st txn).result = POutcome.resolved := by
  cases q with
  | nil => simp [_commit, hq]
  | cons a rest => cases txn <;> simp [_commit, hq]

/-- The transaction loop only ever settles get promises. -/
theorem applyActions_evs_shape (q : List Action) (st : Store) (ev : Ev)
    (h : ev ∈ (applyActions q st).2) : ∃ g v, ev = Ev.resolveGet g v := by
  induction q generalizing st with
  | nil => simp [applyActions] at h
  | cons a rest ih =>
    cases ht : a.type <;> simp [applyActions, ht] at h
    · rcases h with h | h
      · exact ⟨a.getId, storeGet st a.key, h⟩
      · exact ih _ h
    · exact ih _ h
    · exact ih _ h

/-- Rejecting the gets of a drained batch only ever rejects get
    promises. -/
theorem rejectGets_shape (q : List Action) (e : Error) (ev : Ev)
    (h : ev ∈ rejectGets q e) : ∃ g, ev = Ev.rejectGet (some g) e := by
  simp only [rejectGets, List.mem_filterMap] at h
  rcases h with ⟨a, _, ha⟩
  cases hg : a.getId with
  | none => rw [hg] at ha; simp at ha
  | some g => rw [hg] at ha; simp at ha; exact ⟨g, ha.symm⟩

/-- The transaction loop over a concatenation: the first part runs on
    the incoming store, the second on the store the first left behind,
    and the event lists concatenate in order. -/
theorem applyActions_append (q₁ q₂ : List Action) (st : Store) :
    applyActions (q₁ ++ q₂) st =
      ((applyActions q₂ (applyActions q₁ st).1).1,
       (applyActions q₁ st).2 ++ (applyActions q₂ (applyActions q₁ st).1).2) := by
  induction q₁ generalizing st with
  | nil => simp [applyActions]
  | cons a rest ih =>
    cases ht : a.type <;> simp [applyActions, ht, ih]

/-- A put is visible to a get of the same key. -/
theorem storeGet_put_self (st : Store) (k : Key) (v : Option Value) :
    storeGet (storePut st k v) k = v := by
  simp [storePut, storeGet]

/-- A delete removes nothing stored under other keys. -/
theorem storeGet_delete_ne (st : Store) (k k' : Key) (h : k ≠ k') :
    storeGet (storeDelete st k) k' = storeGet st k' := by
  induction st with
  | nil => rfl
  | cons p rest ih =>
    obtain ⟨pk, pv⟩ := p
    by_cases hpk : pk = k
    · subst hpk
      simp [storeDelete, storeGet, h, ih]
    · by_cases hpk' : pk = k'
      · subst hpk'
        simp [storeDelete, storeGet, hpk]
      · simp [storeDelete, storeGet, hpk, hpk', ih]

/-- A put leaves every other key unchanged. -/
theorem storeGet_put_ne (st : Store) (k k' : Key) (v : Option Value) (h : k ≠ k') :
    storeGet (storePut st k v) k' = storeGet st k' := by
  simp [storePut, storeGet, h, storeGet_delete_ne st k k' h]

/-- Actions that never write key `k` leave what a get of `k` sees
    unchanged. -/
theorem applyActions_store_untouched (q : List Action) (st : Store) (k : Key)
    (h : ∀ a ∈ q, a.key ≠ k ∨ a.type = ActionType.get) :
    storeGet (applyActions q st).1 k = storeGet st k := by
  induction q generalizing st with
  | nil => rfl
  | cons a rest ih =>
    have ha := h a (by simp)
    have hrest : ∀ b ∈ rest, b.key ≠ k ∨ b.type = ActionType.get := by
      intro b hb; exact h b (by simp [hb])
    cases ht : a.type with
    | get => simp [applyActions, ht, ih _ hrest]
    | set =>
      have hk : a.key ≠ k := by
        rcases ha with ha | ha
        · exact ha
        · rw [ht] at ha; cases ha
      simp [applyActions, ht, ih _ hrest, storeGet_put_ne _ _ _ _ hk]
    | delete =>
      have hk : a.key ≠ k := by
        rcases ha with ha | ha
        · exact ha
        · rw [ht] at ha; cases ha
      simp [applyActions, ht, ih _ hrest, storeGet_delete_ne _ _ _ hk]

/-- Every get action of a batch has its promise resolved by the
    transaction loop. -/
theorem applyActions_get_settles (q : List Action) (st : Store) (a : Action)
    (ha : a ∈ q) (ht : a.type = ActionType.get) :
    ∃ v, Ev.resolveGet a.getId v ∈ (applyActions q st).2 := by
  induction q generalizing st with
  | nil => cases ha
  | cons b rest ih =>
    rcases List.mem_cons.mp ha with hab | ha'
    · subst hab
      refine ⟨storeGet st a.key, ?_⟩
      simp [applyActions, ht]
    · cases htb : b.type with
      | get =>
        rcases ih st ha' with ⟨v, hv⟩
        exact ⟨v, by simp [applyActions, htb]; right; exact hv⟩
      | set =>
        rcases ih (storePut st b.key b.value) ha' with ⟨v, hv⟩
        exact ⟨v, by simp [applyActions, htb, hv]⟩
      | delete =>
        rcases ih (storeDelete st b.key) ha' with ⟨v, hv⟩
        exact ⟨v, by simp [applyActions, htb, hv]⟩

/-- Every action of a batch carrying a reject handler is rejected when
    the batch's transaction fails. -/
theorem rejectGets_mem (q : List Action) (e : Error) (a : Action) (g : Nat)
    (ha : a ∈ q) (hg : a.getId = some g) :
    Ev.rejectGet (some g) e ∈ rejectGets q e := by
  simp only [rejectGets, List.mem_filterMap]
  exact ⟨a, ha, by rw [hg]; rfl⟩

/-- With the timer promise resolved, `close` clears the interval, runs
    the final commit (whose own promise always resolves on a non-nulled
    queue), closes the connection and resolves. -/
theorem close_interval_eq (s : Idbkv) (p : Nat) (st : Store) (txn : TxnOutcome)
    (q : List Action) (hq : s.actions = some q) :
    close s (TimerResult.interval p) st txn =
      ⟨(_commit { s with closed := true } st txn).eng,
       (_commit { s with closed := true } st txn).store,
       Ev.closedSet :: Ev.timerCleared ::
         ((_commit { s with closed := true } st txn).evs ++
           [Ev.connClosed, Ev.closeResolved]),
       POutcome.resolved⟩ := by
  have hcr := _commit_result_resolved { s with closed := true } st txn q hq
  rcases ho : _commit { s with closed := true } st txn with ⟨eng, store, evs, r⟩
  rw [ho] at hcr
  simp only at hcr
  subst hcr
  simp [close, ho]

/-- On a non-empty queue, a committing transaction that completes
    produces exactly the loop's get resolutions followed by the
    resolution of the detached batch promise. -/
theorem _commit_complete_evs (s : Idbkv) (st : Store) (q : List Action)
    (hq : s.actions = some q) (hne : q ≠ []) :
    (_commit s st TxnOutcome.complete).evs =
      (applyActions q st).2 ++ [Ev.resolveBatch s.batchId] := by
  cases q with
  | nil => exact absurd rfl hne
  | cons a rest => simp [_commit, hq, drainSwap]

/-
  The claims.
-/

/-- C7: with an empty pending queue, `commit()` returns immediately
    without opening a transaction and resolves, leaving the queue, the
    batch outcome promise and the closed flag (the whole engine state,
    and the store) unchanged. -/
theorem commit_empty_queue_noop (s : Idbkv) (st : Store) (txn : TxnOutcome)
    (h : s.actions = some []) :
    _commit s st txn = ⟨s, st, [], POutcome.resolved⟩ := by
  simp [_commit, h]

/-- Witness for C7 on a freshly constructed engine. -/
theorem commit_empty_queue_noop_witness :
    _commit (Idbkv.init none) [] TxnOutcome.complete =
      ⟨Idbkv.init none, [], [], POutcome.resolved⟩ :=
  commit_empty_queue_noop (Idbkv.init none) [] TxnOutcome.complete rfl

/-- C3 counterexample: on a closed engine, the `set` call does not throw
    synchronously — `set` is an `async` function, so the closed-error
    surfaces as a rejection of the returned promise. -/
theorem set_closed_not_synchronous_cex :
    (setCall { Idbkv.init none with closed := true } "a" 1).2 ≠
      JsCall.syncThrow Error.closedError ∧
    (setCall { Idbkv.init none with closed := true } "a" 1).2 =
      JsCall.returnedPromise EnqueueResult.closedErr := by
  exact ⟨by decide, rfl⟩

/-- C3 as amended: on a closed engine, `get`, `set` and `delete` all
    fail with the closed error without touching the pending queue (the
    state is returned unchanged), and for `set` the failure is delivered
    through the returned promise rejecting, not a synchronous throw. -/
theorem closed_rejects_all_ops (s : Idbkv) (k : Key) (v : Value)
    (h : s.closed = true) :
    get s k = (s, EnqueueResult.closedErr) ∧
    set s k v = (s, EnqueueResult.closedErr) ∧
    delete s k = (s, EnqueueResult.closedErr) ∧
    (setCall s k v).2 = JsCall.returnedPromise EnqueueResult.closedErr := by
  simp [get, set, delete, setCall, h]

/-- Witness for C3 as amended, on a closed fresh engine. -/
theorem closed_rejects_all_ops_witness :
    get { Idbkv.init none with closed := true } "a" =
      ({ Idbkv.init none with closed := true }, EnqueueResult.closedErr) ∧
    set { Idbkv.init none with closed := true } "a" 1 =
      ({ Idbkv.init none with closed := true }, EnqueueResult.closedErr) ∧
    delete { Idbkv.init none with closed := true } "a" =
      ({ Idbkv.init none with closed := true }, EnqueueResult.closedErr) ∧
    (setCall { Idbkv.init none with closed := true } "a" 1).2 =
      JsCall.returnedPromise EnqueueResult.closedErr :=
  closed_rejects_all_ops { Idbkv.init none with closed := true } "a" 1 rfl

/-- C8: the batch scheduler starts only once the db promise resolves
    (nothing runs while it is pending, and its rejection becomes the
    timer's), runs one commit immediately whatever the queue holds, and
    installs the interval with period exactly the `batchInterval` chosen
    at construction, which defaults to 10. -/
theorem batch_timer_starts_after_db (s : Idbkv) (n : Nat) (e : Error) :
    _startBatchTimer s DbState.resolved =
      ([Ev.commitCall], TimerResult.interval s.batchInterval) ∧
    _startBatchTimer s DbState.pending = ([], TimerResult.pendingT) ∧
    _startBatchTimer s (DbState.rejected e) = ([], TimerResult.rejectedT e) ∧
    (Idbkv.init none).batchInterval = 10 ∧
    (Idbkv.init (some n)).batchInterval = n :=
  ⟨rfl, rfl, rfl, rfl, rfl⟩

/-- C10: after a failed open, the timer promise holds the open error, so
    `close()` rejects with that error (before clearing any interval or
    committing), and `destroy()` therefore rejects too, never reaching
    the `deleteDatabase` request. -/
theorem close_after_open_failure_rejects (s₀ : Idbkv) (e : Error) (st : Store)
    (txn : TxnOutcome) (er : EraseOutcome) :
    (_startBatchTimer (dbOnError s₀ e).1 (DbState.rejected e)).2 =
      TimerResult.rejectedT e ∧
    close (dbOnError s₀ e).1 (TimerResult.rejectedT e) st txn =
      ⟨(dbOnError s₀ e).1, st, [Ev.closedSet], POutcome.rejected e⟩ ∧
    destroy (dbOnError s₀ e).1 (TimerResult.rejectedT e) st txn er =
      ⟨(dbOnError s₀ e).1, st, [Ev.closedSet], POutcome.rejected e⟩ ∧
    Ev.deleteDatabase ∉
      (destroy (dbOnError s₀ e).1 (TimerResult.rejectedT e) st txn er).evs := by
  refine ⟨rfl, rfl, rfl, ?_⟩
  show Ev.deleteDatabase ∉ [Ev.closedSet]
  simp

/-- C6: when the open request fails, the engine transitions to closed
    (and nulls its queue), the connection error is fanned out to the
    completion of every pending get and to the current batch outcome
    promise, and every further enqueue attempt is rejected. -/
theorem open_failure_fans_out_and_closes (s : Idbkv) (q : List Action) (e : Error)
    (k : Key) (v : Value) (hq : s.actions = some q) :
    (dbOnError s e).1.closed = true ∧
    (dbOnError s e).1.actions = none ∧
    (∀ a ∈ q, ∀ g, a.getId = some g →
      Ev.rejectGet (some g) e ∈ (dbOnError s e).2) ∧
    Ev.rejectBatch s.batchId e ∈ (dbOnError s e).2 ∧
    (get (dbOnError s e).1 k).2 = EnqueueResult.closedErr ∧
    (set (dbOnError s e).1 k v).2 = EnqueueResult.closedErr ∧
    (delete (dbOnError s e).1 k).2 = EnqueueResult.closedErr := by
  refine ⟨rfl, rfl, ?_, ?_, rfl, rfl, rfl⟩
  · intro a ha g hg
    have hm := rejectGets_mem q e a g ha hg
    simp only [dbOnError, hq, Option.getD_some]
    exact List.mem_append_left _ hm
  · simp only [dbOnError, hq, Option.getD_some]
    exact List.mem_append_right _ (by simp)

/-- Witness for C6: one pending get, one pending set, a concrete error. -/
theorem open_failure_fans_out_and_closes_witness :
    (dbOnError (set (get (Idbkv.init none) "a").1 "b" 2).1 (Error.conn 7)).1.closed = true ∧
    (dbOnError (set (get (Idbkv.init none) "a").1 "b" 2).1 (Error.conn 7)).1.actions = none ∧
    (∀ a ∈ [getAction "a" 0, setAction "b" 2], ∀ g, a.getId = some g →
      Ev.rejectGet (some g) (Error.conn 7) ∈
        (dbOnError (set (get (Idbkv.init none) "a").1 "b" 2).1 (Error.conn 7)).2) ∧
    Ev.rejectBatch (set (get (Idbkv.init none) "a").1 "b" 2).1.batchId (Error.conn 7) ∈
      (dbOnError (set (get (Idbkv.init none) "a").1 "b" 2).1 (Error.conn 7)).2 ∧
    (get (dbOnError (set (get (Idbkv.init none) "a").1 "b" 2).1 (Error.conn 7)).1 "c").2 =
      EnqueueResult.closedErr ∧
    (set (dbOnError (set (get (Idbkv.init none) "a").1 "b" 2).1 (Error.conn 7)).1 "c" 3).2 =
      EnqueueResult.closedErr ∧
    (delete (dbOnError (set (get (Idbkv.init none) "a").1 "b" 2).1 (Error.conn 7)).1 "c").2 =
      EnqueueResult.closedErr :=
  open_failure_fans_out_and_closes (set (get (Idbkv.init none) "a").1 "b" 2).1
    [getAction "a" 0, setAction "b" 2] (Error.conn 7) "c" 3 rfl

/-- C9: `destroy()` has the full effect of `close()` (same resulting
    engine, with the close events first), then issues the erasure of the
    whole store; its promise resolves exactly when erasure completes
    (the store is then empty) and rejects with the erasure error when
    deletion fails (the store keeping whatever close left). -/
theorem destroy_closes_then_erases (s : Idbkv) (q : List Action) (p : Nat)
    (st : Store) (txn : TxnOutcome) (e : Error) (hq : s.actions = some q) :
    (destroy s (TimerResult.interval p) st txn EraseOutcome.success).eng =
      (close s (TimerResult.interval p) st txn).eng ∧
    (destroy s (TimerResult.interval p) st txn EraseOutcome.success).evs =
      (close s (TimerResult.interval p) st txn).evs ++ [Ev.deleteDatabase] ∧
    (destroy s (TimerResult.interval p) st txn EraseOutcome.success).result =
      POutcome.resolved ∧
    (destroy s (TimerResult.interval p) st txn EraseOutcome.success).store = [] ∧
    (destroy s (TimerResult.interval p) st txn (EraseOutcome.failure e)).eng =
      (close s (TimerResult.interval p) st txn).eng ∧
    (destroy s (TimerResult.interval p) st txn (EraseOutcome.failure e)).evs =
      (close s (TimerResult.interval p) st txn).evs ++ [Ev.deleteDatabase] ∧
    (destroy s (TimerResult.interval p) st txn (EraseOutcome.failure e)).result =
      POutcome.rejected e ∧
    (destroy s (TimerResult.interval p) st txn (EraseOutcome.failure e)).store =
      (close s (TimerResult.interval p) st txn).store := by
  rw [close_interval_eq s p st txn q hq]
  simp [destroy, close_interval_eq s p st txn q hq]

/-- Witness for C9: destroying an engine holding one queued set. -/
theorem destroy_closes_then_erases_witness :
    (destroy (set (Idbkv.init none) "a" 1).1 (TimerResult.interval 10) []
        TxnOutcome.complete EraseOutcome.success).eng =
      (close (set (Idbkv.init none) "a" 1).1 (TimerResult.interval 10) []
        TxnOutcome.complete).eng ∧
    (destroy (set (Idbkv.init none) "a" 1).1 (TimerResult.interval 10) []
        TxnOutcome.complete EraseOutcome.success).evs =
      (close (set (Idbkv.init none) "a" 1).1 (TimerResult.interval 10) []
        TxnOutcome.complete).evs ++ [Ev.deleteDatabase] ∧
    (destroy (set (Idbkv.init none) "a" 1).1 (TimerResult.interval 10) []
        TxnOutcome.complete EraseOutcome.success).result = POutcome.resolved ∧
    (destroy (set (Idbkv.init none) "a" 1).1 (TimerResult.interval 10) []
        TxnOutcome.complete EraseOutcome.success).store = [] ∧
    (destroy (set (Idbkv.init none) "a" 1).1 (TimerResult.interval 10) []
        TxnOutcome.complete (EraseOutcome.failure (Error.eraseFail 4))).eng =
      (close (set (Idbkv.init none) "a" 1).1 (TimerResult.interval 10) []
        TxnOutcome.complete).eng ∧
    (destroy (set (Idbkv.init none) "a" 1).1 (TimerResult.interval 10) []
        TxnOutcome.complete (EraseOutcome.failure (Error.eraseFail 4))).evs =
      (close (set (Idbkv.init none) "a" 1).1 (TimerResult.interval 10) []
        TxnOutcome.complete).evs ++ [Ev.deleteDatabase] ∧
    (destroy (set (Idbkv.init none) "a" 1).1 (TimerResult.interval 10) []
        TxnOutcome.complete (EraseOutcome.failure (Error.eraseFail 4))).result =
      POutcome.rejected (Error.eraseFail 4) ∧
    (destroy (set (Idbkv.init none) "a" 1).1 (TimerResult.interval 10) []
        TxnOutcome.complete (EraseOutcome.failure (Error.eraseFail 4))).store =
      (close (set (Idbkv.init none) "a" 1).1 (TimerResult.interval 10) []
        TxnOutcome.complete).store :=
  destroy_closes_then_erases (set (Idbkv.init none) "a" 1).1 [setAction "a" 1] 10 []
    TxnOutcome.complete (Error.eraseFail 4) rfl

/-- C1: on a non-empty batch the commit's own promise resolves whatever
    the transaction does; every set/delete enqueued into the batch holds
    the batch promise the commit detaches, which resolves on transaction
    completion and rejects with the transaction's error on error or
    abort; and afterwards the engine is open with a fresh queue, so the
    next set joins the next batch promise. -/
theorem commit_settles_batch_and_engine_survives
    (s : Idbkv) (st : Store) (q : List Action) (txn : TxnOutcome)
    (k k' k₂ : Key) (v v₂ : Value) (e : Error)
    (hc : s.closed = false) (hq : s.actions = some q) (hne : q ≠ []) :
    (_commit s st txn).result = POutcome.resolved ∧
    (set s k v).2 = EnqueueResult.batchPromise s.batchId ∧
    (delete s k').2 = EnqueueResult.batchPromise s.batchId ∧
    (txn = TxnOutcome.complete →
      (_commit s st txn).evs = (applyActions q st).2 ++ [Ev.resolveBatch s.batchId]) ∧
    (txn = TxnOutcome.error e →
      (_commit s st txn).evs = rejectGets q e ++ [Ev.rejectBatch s.batchId e]) ∧
    (txn = TxnOutcome.abort e →
      (_commit s st txn).evs = rejectGets q e ++ [Ev.rejectBatch s.batchId e]) ∧
    (_commit s st txn).eng.closed = false ∧
    (_commit s st txn).eng.actions = some [] ∧
    (set (_commit s st txn).eng k₂ v₂).2 =
      EnqueueResult.batchPromise (_commit s st txn).eng.batchId := by
  cases q with
  | nil => exact absurd rfl hne
  | cons a rest =>
    cases txn <;>
      simp [_commit, drainSwap, set, delete, hq, hc] <;>
      (intro h; subst h; rfl)

/-- Witness for C1: a single queued set, transaction completing. -/
theorem commit_settles_batch_and_engine_survives_witness :
    (_commit (set (Idbkv.init none) "a" 1).1 [] TxnOutcome.complete).result =
      POutcome.resolved ∧
    (set (set (Idbkv.init none) "a" 1).1 "a" 2).2 =
      EnqueueResult.batchPromise (set (Idbkv.init none) "a" 1).1.batchId ∧
    (delete (set (Idbkv.init none) "a" 1).1 "b").2 =
      EnqueueResult.batchPromise (set (Idbkv.init none) "a" 1).1.batchId ∧
    (TxnOutcome.complete = TxnOutcome.complete →
      (_commit (set (Idbkv.init none) "a" 1).1 [] TxnOutcome.complete).evs =
        (applyActions [setAction "a" 1] []).2 ++
          [Ev.resolveBatch (set (Idbkv.init none) "a" 1).1.batchId]) ∧
    (TxnOutcome.complete = TxnOutcome.error (Error.txn 0) →
      (_commit (set (Idbkv.init none) "a" 1).1 [] TxnOutcome.complete).evs =
        rejectGets [setAction "a" 1] (Error.txn 0) ++
          [Ev.rejectBatch (set (Idbkv.init none) "a" 1).1.batchId (Error.txn 0)]) ∧
    (TxnOutcome.complete = TxnOutcome.abort (Error.txn 0) →
      (_commit (set (Idbkv.init none) "a" 1).1 [] TxnOutcome.complete).evs =
        rejectGets [setAction "a" 1] (Error.txn 0) ++
          [Ev.rejectBatch (set (Idbkv.init none) "a" 1).1.batchId (Error.txn 0)]) ∧
    (_commit (set (Idbkv.init none) "a" 1).1 [] TxnOutcome.complete).eng.closed = false ∧
    (_commit (set (Idbkv.init none) "a" 1).1 [] TxnOutcome.complete).eng.actions =
      some [] ∧
    (set (_commit (set (Idbkv.init none) "a" 1).1 [] TxnOutcome.complete).eng "c" 3).2 =
      EnqueueResult.batchPromise
        (_commit (set (Idbkv.init none) "a" 1).1 [] TxnOutcome.complete).eng.batchId :=
  commit_settles_batch_and_engine_survives (set (Idbkv.init none) "a" 1).1 []
    [setAction "a" 1] TxnOutcome.complete "a" "b" "c" 2 3 (Error.txn 0)
    rfl rfl (by simp)

/-- C2: committing a non-empty queue detaches the whole queue as the
    snapshot together with the current batch promise, and — in the same
    synchronous step, before the transaction outcome can matter —
    installs a fresh empty queue and a fresh batch promise; the commit
    only ever settles the detached promise, and a set enqueued after the
    swap lands in the fresh queue holding the fresh promise. -/
theorem commit_swap_atomic (s : Idbkv) (q : List Action) (st : Store)
    (txn : TxnOutcome) (k : Key) (v : Value)
    (hq : s.actions = some q) (hne : q ≠ []) :
    (drainSwap s).2 = s.batchId ∧
    (drainSwap s).1.actions = some [] ∧
    (drainSwap s).1.batchId = s.batchId + 1 ∧
    (drainSwap s).1.batchId ≠ (drainSwap s).2 ∧
    (_commit s st txn).eng = (drainSwap s).1 ∧
    (∀ b, Ev.resolveBatch b ∈ (_commit s st txn).evs → b = s.batchId) ∧
    (∀ b e, Ev.rejectBatch b e ∈ (_commit s st txn).evs → b = s.batchId) ∧
    (s.closed = false →
      (set (drainSwap s).1 k v).2 = EnqueueResult.batchPromise (s.batchId + 1) ∧
      ((set (drainSwap s).1 k v).1).actions = some [setAction k v]) := by
  cases q with
  | nil => exact absurd rfl hne
  | cons a rest =>
    refine ⟨rfl, rfl, rfl, by simp [drainSwap], ?_, ?_, ?_, ?_⟩
    · cases txn <;> simp [_commit, hq, drainSwap]
    · intro b hb
      cases txn <;> simp [_commit, hq, drainSwap] at hb
      · rcases hb with hb | hb
        · rcases applyActions_evs_shape _ _ _ hb with ⟨g, v', hgv⟩
          simp at hgv
        · exact hb
      · rcases rejectGets_shape _ _ _ hb with ⟨g, hgv⟩
        simp at hgv
      · rcases rejectGets_shape _ _ _ hb with ⟨g, hgv⟩
        simp at hgv
    · intro b e hb
      cases txn <;> simp [_commit, hq, drainSwap] at hb
      · rcases applyActions_evs_shape _ _ _ hb with ⟨g, v', hgv⟩
        simp at hgv
      · rcases hb with hb | hb
        · rcases rejectGets_shape _ _ _ hb with ⟨g, hgv⟩
          simp at hgv
        · exact hb.1
      · rcases hb with hb | hb
        · rcases rejectGets_shape _ _ _ hb with ⟨g, hgv⟩
          simp at hgv
        · exact hb.1
    · intro hc
      constructor <;> simp [set, drainSwap, hc]

/-- Witness for C2: a queue holding one set, transaction erroring. -/
theorem commit_swap_atomic_witness :
    (drainSwap (set (Idbkv.init none) "a" 1).1).2 =
      (set (Idbkv.init none) "a" 1).1.batchId ∧
    (drainSwap (set (Idbkv.init none) "a" 1).1).1.actions = some [] ∧
    (drainSwap (set (Idbkv.init none) "a" 1).1).1.batchId =
      (set (Idbkv.init none) "a" 1).1.batchId + 1 ∧
    (drainSwap (set (Idbkv.init none) "a" 1).1).1.batchId ≠
      (drainSwap (set (Idbkv.init none) "a" 1).1).2 ∧
    (_commit (set (Idbkv.init none) "a" 1).1 [] (TxnOutcome.error (Error.txn 5))).eng =
      (drainSwap (set (Idbkv.init none) "a" 1).1).1 ∧
    (∀ b, Ev.resolveBatch b ∈
        (_commit (set (Idbkv.init none) "a" 1).1 [] (TxnOutcome.error (Error.txn 5))).evs →
      b = (set (Idbkv.init none) "a" 1).1.batchId) ∧
    (∀ b e, Ev.rejectBatch b e ∈
        (_commit (set (Idbkv.init none) "a" 1).1 [] (TxnOutcome.error (Error.txn 5))).evs →
      b = (set (Idbkv.init none) "a" 1).1.batchId) ∧
    ((set (Idbkv.init none) "a" 1).1.closed = false →
      (set (drainSwap (set (Idbkv.init none) "a" 1).1).1 "b" 2).2 =
        EnqueueResult.batchPromise ((set (Idbkv.init none) "a" 1).1.batchId + 1) ∧
      ((set (drainSwap (set (Idbkv.init none) "a" 1).1).1 "b" 2).1).actions =
        some [setAction "b" 2]) :=
  commit_swap_atomic (set (Idbkv.init none) "a" 1).1 [setAction "a" 1] []
    (TxnOutcome.error (Error.txn 5)) "b" 2 rfl (by simp)

/-- C5: within one batch the transaction applies actions in enqueue
    order against its own running view of the store, so a get of `k`
    queued after a set of `k` to `v` — with no later write to `k` in
    between — resolves with `v` once the batch's transaction completes;
    in particular the latest of several sets to the same key wins. -/
theorem get_sees_latest_set_in_batch (s : Idbkv) (st : Store)
    (q₁ q₂ : List Action) (k : Key) (v : Value) (g : Nat)
    (hq : s.actions = some (q₁ ++ setAction k v :: (q₂ ++ [getAction k g])))
    (h2 : ∀ a ∈ q₂, a.key ≠ k ∨ a.type = ActionType.get) :
    Ev.resolveGet (some g) (some v) ∈ (_commit s st TxnOutcome.complete).evs := by
  have hne : q₁ ++ setAction k v :: (q₂ ++ [getAction k g]) ≠ [] := by
    cases q₁ <;> simp
  rw [_commit_complete_evs s st _ hq hne]
  apply List.mem_append_left
  rw [applyActions_append]
  apply List.mem_append_right
  show Ev.resolveGet (some g) (some v) ∈
    (applyActions (setAction k v :: (q₂ ++ [getAction k g]))
      (applyActions q₁ st).1).2
  simp only [applyActions, setAction]
  rw [applyActions_append]
  apply List.mem_append_right
  have hst : storeGet (applyActions q₂
      (storePut (applyActions q₁ st).1 k (some v))).1 k = some v := by
    rw [applyActions_store_untouched q₂ _ k h2, storeGet_put_self]
  simp [applyActions, getAction, hst]

/-- Witness for C5, the spec's scenario: `set('a',1)`, `set('a',2)`,
    `get('a')` queued in one batch; the get resolves with 2. -/
theorem get_sees_latest_set_in_batch_witness :
    Ev.resolveGet (some 0) (some 2) ∈
      (_commit (get (set (set (Idbkv.init none) "a" 1).1 "a" 2).1 "a").1 []
        TxnOutcome.complete).evs :=
  get_sees_latest_set_in_batch
    (get (set (set (Idbkv.init none) "a" 1).1 "a" 2).1 "a").1 []
    [setAction "a" 1] [] "a" 2 0 rfl (by simp)

/-- C4 counterexample: a set is enqueued (joining batch promise 0), the
    interval tick drains it into a transaction still in flight when
    `close()` runs; close's final commit finds an empty queue and
    returns at once, so `close()` resolves — and only afterwards does
    the drained batch settle.  An action enqueued strictly before the
    `close()` call thus settles after `close()`'s promise resolves. -/
theorem close_overtakes_inflight_batch_cex :
    (set (run [Lab.dbOpen]).eng "a" 1).2 = EnqueueResult.batchPromise 0 ∧
    (run closeRaceSchedule).log =
      [Ev.commitCall, Ev.commitCall, Ev.closedSet, Ev.timerCleared, Ev.commitCall,
       Ev.connClosed, Ev.closeResolved, Ev.resolveBatch 0] ∧
    precedes (run closeRaceSchedule).log Ev.closeResolved (Ev.resolveBatch 0) = true :=
  ⟨rfl, rfl, rfl⟩

/-- C4 as amended: `close()` sets closed, stops the scheduler before the
    final drain, commits, closes the connection and resolves, in that
    order; and every action still in the pending queue when `close()` is
    called has its completion settled within that final commit, hence
    before `close()`'s promise resolves.  (An action already drained
    into an earlier, still in-flight batch may settle only after
    `close()` resolves.) -/
theorem close_drains_pending_queue (s : Idbkv) (p : Nat) (st : Store)
    (txn : TxnOutcome) (q : List Action) (hq : s.actions = some q)
    (hwf : ∀ a ∈ q, a.type = ActionType.get ↔ a.getId ≠ none) :
    (close s (TimerResult.interval p) st txn).eng.closed = true ∧
    (close s (TimerResult.interval p) st txn).result = POutcome.resolved ∧
    (close s (TimerResult.interval p) st txn).evs =
      Ev.closedSet :: Ev.timerCleared ::
        ((_commit { s with closed := true } st txn).evs ++
          [Ev.connClosed, Ev.closeResolved]) ∧
    ∀ a ∈ q, settledIn a s.batchId (_commit { s with closed := true } st txn).evs := by
  rw [close_interval_eq s p st txn q hq]
  refine ⟨?_, rfl, rfl, ?_⟩
  · cases q with
    | nil => simp [_commit, hq]
    | cons b rest => cases txn <;> simp [_commit, hq, drainSwap]
  · intro a ha
    cases q with
    | nil => cases ha
    | cons b rest =>
      cases hg : a.getId with
      | some g =>
        cases txn with
        | complete =>
          have ht : a.type = ActionType.get :=
            (hwf a ha).mpr (by rw [hg]; simp)
          rcases applyActions_get_settles (b :: rest) st a ha ht with ⟨v, hv⟩
          rw [hg] at hv
          simp only [settledIn, hg]
          exact Or.inl ⟨v, by
            rw [_commit_complete_evs { s with closed := true } st _ hq (by simp)]
            exact List.mem_append_left _ hv⟩
        | error e =>
          simp only [settledIn, hg]
          refine Or.inr ⟨e, ?_⟩
          simp only [_commit, hq, drainSwap]
          exact List.mem_append_left _ (rejectGets_mem _ e a g ha hg)
        | abort e =>
          simp only [settledIn, hg]
          refine Or.inr ⟨e, ?_⟩
          simp only [_commit, hq, drainSwap]
          exact List.mem_append_left _ (rejectGets_mem _ e a g ha hg)
      | none =>
        cases txn with
        | complete =>
          simp only [settledIn, hg]
          refine Or.inl ?_
          rw [_commit_complete_evs { s with closed := true } st _ hq (by simp)]
          exact List.mem_append_right _ (by simp)
        | error e =>
          simp only [settledIn, hg]
          refine Or.inr ⟨e, ?_⟩
          simp only [_commit, hq, drainSwap]
          exact List.mem_append_right _ (by simp)
        | abort e =>
          simp only [settledIn, hg]
          refine Or.inr ⟨e, ?_⟩
          simp only [_commit, hq, drainSwap]
          exact List.mem_append_right _ (by simp)

/-- Witness for C4 as amended: closing an engine holding one queued get
    and one queued set, transaction completing. -/
theorem close_drains_pending_queue_witness :
    (close (set (get (Idbkv.init none) "a").1 "b" 2).1 (TimerResult.interval 10) []
        TxnOutcome.complete).eng.closed = true ∧
    (close (set (get (Idbkv.init none) "a").1 "b" 2).1 (TimerResult.interval 10) []
        TxnOutcome.complete).result = POutcome.resolved ∧
    (close (set (get (Idbkv.init none) "a").1 "b" 2).1 (TimerResult.interval 10) []
        TxnOutcome.complete).evs =
      Ev.closedSet :: Ev.timerCleared ::
        ((_commit { (set (get (Idbkv.init none) "a").1 "b" 2).1 with closed := true } []
            TxnOutcome.complete).evs ++ [Ev.connClosed, Ev.closeResolved]) ∧
    ∀ a ∈ [getAction "a" 0, setAction "b" 2],
      settledIn a (set (get (Idbkv.init none) "a").1 "b" 2).1.batchId
        (_commit { (set (get (Idbkv.init none) "a").1 "b" 2).1 with closed := true } []
          TxnOutcome.complete).evs :=
  close_drains_pending_queue (set (get (Idbkv.init none) "a").1 "b" 2).1 10 []
    TxnOutcome.complete [getAction "a" 0, setAction "b" 2] rfl (by decide)

end IdbKv
